import Mathlib

/-!
# Verification of the LogicaDifusa fuzzy projection pipeline

Shallow embedding of `src/app.py`: a Mamdani fuzzy-inference system with two
antecedent variables (`atractivo`, `disponibilidad`), one consequent
(`exito_potencial`), six rules, centroid defuzzification, a financial return
projector and a three-band classification of the crisp output.

The source configures the `skfuzzy` library, whose code is not part of the
repository; the triangular membership functions and the inference engine are
therefore modelled from the specification (sections 3, 4.1-4.4), while the
universes, membership parameters, rule list, return projector and
classification bands are translated directly from `src/app.py`.

Real numbers are embedded as rationals so that every definition is executable.
-/

namespace LogicaDifusa

/-- The one computational failure of the core (spec section 7): defuzzification
of an identically-zero aggregated curve is undefined. -/
inductive FuzzyError where
  | undefinedDefuzzification
deriving DecidableEq, Repr

/-- Modelled from the spec: triangular membership function with parameters
`(a, b, c)` (spec section 3 and 4.1; the `fuzz.trimf` calls of `app.py`).
It is 0 outside `[a, c]`, rises linearly from 0 at `a` to 1 at `b`, is exactly
1 at `b`, and falls linearly from 1 at `b` to 0 at `c`.  A zero-width rising
segment (`a = b`) or falling segment (`b = c`) is treated as a step to 1
(respectively from 1), so no branch ever divides by the zero width. -/
def trimf (a b c x : ℚ) : ℚ :=
  if x < a then 0
  else if x < b then (x - a) / (b - a)
  else if x = b then 1
  else if x < c then (c - x) / (c - b)
  else 0

/-- Universe of `atractivo`: `np.arange(0, 10.1, 0.1)` (app.py line 14). -/
def atractivoUniverse : List ℚ := (List.range 101).map (fun i => (i : ℚ) / 10)

/-- Universe of `disponibilidad`: `np.arange(1, 100.1, 1)` (app.py line 16). -/
def disponibilidadUniverse : List ℚ := (List.range 100).map (fun i => (i : ℚ) + 1)

/-- Universe of `exito_potencial`: `np.arange(0, 100.1, 0.1)` (app.py line 20). -/
def exitoUniverse : List ℚ := (List.range 1001).map (fun i => (i : ℚ) / 10)

/-- `atractivo['bajo'] = fuzz.trimf(atractivo.universe, [0, 0, 5])`. -/
def atractivo_bajo (x : ℚ) : ℚ := trimf 0 0 5 x

/-- `atractivo['promedio'] = fuzz.trimf(atractivo.universe, [3, 6, 9])`. -/
def atractivo_promedio (x : ℚ) : ℚ := trimf 3 6 9 x

/-- `atractivo['sobresaliente'] = fuzz.trimf(atractivo.universe, [7, 10, 10])`. -/
def atractivo_sobresaliente (x : ℚ) : ℚ := trimf 7 10 10 x

/-- `disponibilidad['limitada'] = fuzz.trimf(disponibilidad.universe, [1, 1, 50])`. -/
def disponibilidad_limitada (x : ℚ) : ℚ := trimf 1 1 50 x

/-- `disponibilidad['adecuada'] = fuzz.trimf(disponibilidad.universe, [30, 70, 90])`. -/
def disponibilidad_adecuada (x : ℚ) : ℚ := trimf 30 70 90 x

/-- `disponibilidad['abundante'] = fuzz.trimf(disponibilidad.universe, [70, 100, 100])`. -/
def disponibilidad_abundante (x : ℚ) : ℚ := trimf 70 100 100 x

/-- `exito_potencial['bajo'] = fuzz.trimf(exito_potencial.universe, [0, 15, 30])`. -/
def exito_bajo (x : ℚ) : ℚ := trimf 0 15 30 x

/-- `exito_potencial['moderado'] = fuzz.trimf(exito_potencial.universe, [20, 50, 80])`. -/
def exito_moderado (x : ℚ) : ℚ := trimf 20 50 80 x

/-- `exito_potencial['alto'] = fuzz.trimf(exito_potencial.universe, [70, 90, 100])`. -/
def exito_alto (x : ℚ) : ℚ := trimf 70 90 100 x

/-- Modelled from the spec (section 4.2): fuzzification of the two crisp
inputs.  Given the inputs, `fuzzify a d var term` is the membership degree of
input `var` in `term`; a term that was never fuzzified this session is 0. -/
def fuzzify (a d : ℚ) (var term : String) : ℚ :=
  if var = "atractivo" then
    if term = "bajo" then atractivo_bajo a
    else if term = "promedio" then atractivo_promedio a
    else if term = "sobresaliente" then atractivo_sobresaliente a
    else 0
  else if var = "disponibilidad" then
    if term = "limitada" then disponibilidad_limitada d
    else if term = "adecuada" then disponibilidad_adecuada d
    else if term = "abundante" then disponibilidad_abundante d
    else 0
  else 0

/-- Antecedent expression tree of a rule (spec section 3): leaves reference a
variable term; AND and OR combine subtrees. -/
inductive FExpr where
  | term (var name : String)
  | andE (l r : FExpr)
  | orE (l r : FExpr)

/-- Modelled from the spec (section 4.3): firing strength of an antecedent
expression under a fuzzified session `σ`: a leaf's strength is the fuzzified
degree of its referenced term, AND-nodes take the minimum of their children,
OR-nodes the maximum. -/
def strength (σ : String → String → ℚ) : FExpr → ℚ
  | .term v t => σ v t
  | .andE l r => min (strength σ l) (strength σ r)
  | .orE l r => max (strength σ l) (strength σ r)

/-- A rule: an antecedent expression and the membership function of its single
consequent term (spec section 3). -/
structure Rule where
  antecedent : FExpr
  consequent : ℚ → ℚ

/-- `ctrl.Rule(atractivo['bajo'], exito_potencial['bajo'])` (app.py line 43). -/
def rule1 : Rule := ⟨.term "atractivo" "bajo", exito_bajo⟩

/-- `ctrl.Rule(atractivo['sobresaliente'] & disponibilidad['abundante'],
exito_potencial['alto'])` (app.py line 46). -/
def rule2 : Rule :=
  ⟨.andE (.term "atractivo" "sobresaliente") (.term "disponibilidad" "abundante"),
    exito_alto⟩

/-- `ctrl.Rule(atractivo['sobresaliente'] & disponibilidad['limitada'],
exito_potencial['moderado'])` (app.py line 49). -/
def rule3 : Rule :=
  ⟨.andE (.term "atractivo" "sobresaliente") (.term "disponibilidad" "limitada"),
    exito_moderado⟩

/-- `ctrl.Rule(atractivo['promedio'] & disponibilidad['adecuada'],
exito_potencial['moderado'])` (app.py line 52). -/
def rule4 : Rule :=
  ⟨.andE (.term "atractivo" "promedio") (.term "disponibilidad" "adecuada"),
    exito_moderado⟩

/-- `ctrl.Rule(atractivo['promedio'] & disponibilidad['abundante'],
exito_potencial['alto'])` (app.py line 55). -/
def rule5 : Rule :=
  ⟨.andE (.term "atractivo" "promedio") (.term "disponibilidad" "abundante"),
    exito_alto⟩

/-- `ctrl.Rule(atractivo['promedio'] & disponibilidad['limitada'],
exito_potencial['bajo'])` (app.py line 58). -/
def rule6 : Rule :=
  ⟨.andE (.term "atractivo" "promedio") (.term "disponibilidad" "limitada"),
    exito_bajo⟩

/-- The six rules of `app.py` lines 41-59, in source order. -/
def rules : List Rule := [rule1, rule2, rule3, rule4, rule5, rule6]

/-- Modelled from the spec (section 4.4 step 3, implication): the rule's
consequent shape clipped (min) at the rule's firing strength, at sample
point `x`. -/
def implicated (σ : String → String → ℚ) (r : Rule) (x : ℚ) : ℚ :=
  min (strength σ r.antecedent) (r.consequent x)

/-- Modelled from the spec (section 4.4 step 4, aggregation): point-wise
maximum of the implicated values of all rules at sample point `x`. -/
def aggregated (rs : List Rule) (σ : String → String → ℚ) (x : ℚ) : ℚ :=
  (rs.map (fun r => implicated σ r x)).foldr max 0

/-- Modelled from the spec (section 4.4 steps 5-6): centroid defuzzification
over the consequent universe, with the distinct failure value when the
aggregated curve sums to zero (it is then identically zero, see
`sum_aggregated_eq_zero_iff`). -/
def computeWith (rs : List Rule) (a d : ℚ) : Except FuzzyError ℚ :=
  if (exitoUniverse.map (aggregated rs (fuzzify a d))).sum = 0 then
    Except.error FuzzyError.undefinedDefuzzification
  else
    Except.ok ((exitoUniverse.map (fun x => x * aggregated rs (fuzzify a d) x)).sum
      / (exitoUniverse.map (aggregated rs (fuzzify a d))).sum)

/-- Modelled from the spec (section 4.4): the inference computation of
`exito_sistema.compute()` with the static six-rule base. -/
def compute (a d : ℚ) : Except FuzzyError ℚ := computeWith rules a d

/-- The aggregated output membership curve written out rule by rule,
following the spec's words (section 4.4 steps 1-4): each rule's firing
strength is the minimum of its AND-combined antecedent degrees, its
consequent shape is clipped (min) at that strength, and the six clipped sets
are combined by point-wise maximum.  Stated for comparison with the generic
engine `aggregated`. -/
def mamdaniAggregate (a d x : ℚ) : ℚ :=
  max (min (atractivo_bajo a) (exito_bajo x))
    (max (min (min (atractivo_sobresaliente a) (disponibilidad_abundante d))
        (exito_alto x))
      (max (min (min (atractivo_sobresaliente a) (disponibilidad_limitada d))
          (exito_moderado x))
        (max (min (min (atractivo_promedio a) (disponibilidad_adecuada d))
            (exito_moderado x))
          (max (min (min (atractivo_promedio a) (disponibilidad_abundante d))
              (exito_alto x))
            (min (min (atractivo_promedio a) (disponibilidad_limitada d))
              (exito_bajo x))))))

/-- The full Mamdani pipeline written out following the spec's words
(section 4.4 steps 5-6): the crisp output is the centroid
`Σ(x_i · μ(x_i)) / Σ(μ(x_i))` of the rule-by-rule aggregated curve over the
sample points of the consequent universe, with the distinct failure value
when the curve sums to zero.  Stated for comparison with `compute`. -/
def mamdaniCentroid (a d : ℚ) : Except FuzzyError ℚ :=
  if (exitoUniverse.map (mamdaniAggregate a d)).sum = 0 then
    Except.error FuzzyError.undefinedDefuzzification
  else
    Except.ok ((exitoUniverse.map (fun x => x * mamdaniAggregate a d x)).sum
      / (exitoUniverse.map (mamdaniAggregate a d)).sum)

/-- Per-call evaluation state of the simulation object `exito_sistema`
(app.py lines 63, 80-85): the crisp input stored per antecedent. -/
structure Session where
  atractivoInput : ℚ
  disponibilidadInput : ℚ

/-- `exito_sistema.input['atractivo'] = atractivo_val` (app.py line 80). -/
def setAtractivoInput (s : Session) (v : ℚ) : Session :=
  { s with atractivoInput := v }

/-- `exito_sistema.input['disponibilidad'] = disponibilidad_val` (app.py line 81). -/
def setDisponibilidadInput (s : Session) (v : ℚ) : Session :=
  { s with disponibilidadInput := v }

/-- `exito_sistema.compute()` on the session's stored inputs (app.py line 84). -/
def sessionCompute (s : Session) : Except FuzzyError ℚ :=
  compute s.atractivoInput s.disponibilidadInput

/-- `factor_retorno = exito_porcentaje / 50.0` (app.py line 96). -/
def factor_retorno (exito : ℚ) : ℚ := exito / 50

/-- `retorno_proyectado = inversion_val * factor_retorno` (app.py line 99). -/
def retorno_proyectado (inversion exito : ℚ) : ℚ :=
  inversion * factor_retorno exito

/-- `ganancia_neta = retorno_proyectado - inversion_val` (app.py line 102). -/
def ganancia_neta (inversion exito : ℚ) : ℚ :=
  retorno_proyectado inversion exito - inversion

/-- Band classification of the crisp output (app.py lines 105-116). -/
def nivel_texto (exito : ℚ) : String :=
  if exito < 35 then "Bajo"
  else if exito < 75 then "Moderado"
  else "Alto"

/-! ## Basic properties of the triangular membership function -/

theorem trimf_nonneg (a b c x : ℚ) : 0 ≤ trimf a b c x := by
  unfold trimf
  split_ifs with h1 h2 h3 h4
  · exact le_refl 0
  · apply div_nonneg <;> linarith
  · exact zero_le_one
  · apply div_nonneg <;>
      [skip; skip] <;>
      · rcases lt_trichotomy x b with h | h | h <;> linarith
  · exact le_refl 0

theorem trimf_le_one (a b c x : ℚ) : trimf a b c x ≤ 1 := by
  unfold trimf
  split_ifs with h1 h2 h3 h4
  · exact zero_le_one
  · rw [div_le_one (by linarith)]; linarith
  · exact le_refl 1
  · rw [div_le_one (by rcases lt_trichotomy x b with h | h | h <;> linarith)]
    rcases lt_trichotomy x b with h | h | h <;> linarith
  · exact zero_le_one

theorem trimf_eq_zero_of_lt (a b c x : ℚ) (h : x < a) : trimf a b c x = 0 := by
  unfold trimf
  rw [if_pos h]

theorem trimf_eq_zero_of_gt (a b c x : ℚ) (hab : a ≤ b) (hbc : b ≤ c)
    (h : c < x) : trimf a b c x = 0 := by
  unfold trimf
  rw [if_neg (by linarith), if_neg (by linarith),
    if_neg (by intro he; rw [he] at h; linarith), if_neg (by linarith)]

theorem trimf_apex (a b c : ℚ) (hab : a ≤ b) : trimf a b c b = 1 := by
  unfold trimf
  rw [if_neg (by linarith), if_neg (by linarith), if_pos rfl]

theorem trimf_eq_rise (a b c x : ℚ) (hax : a ≤ x) (hxb : x < b) :
    trimf a b c x = (x - a) / (b - a) := by
  unfold trimf
  rw [if_neg (by linarith), if_pos hxb]

theorem trimf_eq_fall (a b c x : ℚ) (hab : a ≤ b) (hbx : b < x) (hxc : x < c) :
    trimf a b c x = (c - x) / (c - b) := by
  unfold trimf
  rw [if_neg (by linarith), if_neg (by linarith), if_neg (ne_of_gt hbx),
    if_pos hxc]

theorem trimf_at_right_end (a b c : ℚ) (hab : a ≤ b) (hbc : b < c) :
    trimf a b c c = 0 := by
  unfold trimf
  rw [if_neg (by linarith), if_neg (by linarith), if_neg (ne_of_gt hbc),
    if_neg (lt_irrefl c)]

theorem trimf_mono_rise (a b c : ℚ) (hab : a ≤ b) (hbc : b ≤ c) {x y : ℚ}
    (hax : a ≤ x) (hxy : x ≤ y) (hyb : y ≤ b) :
    trimf a b c x ≤ trimf a b c y := by
  rcases eq_or_lt_of_le hyb with hyb' | hyb'
  · rw [hyb', trimf_apex a b c hab]
    exact trimf_le_one a b c x
  · rw [trimf_eq_rise a b c x hax (by linarith),
      trimf_eq_rise a b c y (by linarith) hyb']
    rw [div_le_div_iff_of_pos_right (by linarith)]
    linarith

theorem trimf_anti_fall (a b c : ℚ) (hab : a ≤ b) (hbc : b ≤ c) {x y : ℚ}
    (hbx : b ≤ x) (hxy : x ≤ y) (hyc : y ≤ c) :
    trimf a b c y ≤ trimf a b c x := by
  rcases eq_or_lt_of_le hbx with hbx' | hbx'
  · rw [← hbx', trimf_apex a b c hab]
    exact trimf_le_one a b c y
  · rcases eq_or_lt_of_le hyc with hyc' | hyc'
    · rw [hyc', trimf_at_right_end a b c hab (by linarith)]
      exact trimf_nonneg a b c x
    · rw [trimf_eq_fall a b c x hab hbx' (by linarith),
        trimf_eq_fall a b c y hab (by linarith) hyc']
      rw [div_le_div_iff_of_pos_right (by linarith)]
      linarith

/-- C6: every triangular membership function with parameters `a ≤ b ≤ c`
yields degrees in `[0, 1]`, is 0 outside the support `[a, c]`, equals 1 at
the apex `b`, is non-decreasing on the rising segment `[a, b]`, and is
non-increasing on the falling segment `[b, c]`. -/
theorem trimf_triangular (a b c : ℚ) (hab : a ≤ b) (hbc : b ≤ c) :
    (∀ x, 0 ≤ trimf a b c x ∧ trimf a b c x ≤ 1) ∧
    (∀ x, x < a ∨ c < x → trimf a b c x = 0) ∧
    trimf a b c b = 1 ∧
    (∀ x y, a ≤ x → x ≤ y → y ≤ b → trimf a b c x ≤ trimf a b c y) ∧
    (∀ x y, b ≤ x → x ≤ y → y ≤ c → trimf a b c y ≤ trimf a b c x) := by
  refine ⟨fun x => ⟨trimf_nonneg a b c x, trimf_le_one a b c x⟩,
    fun x hx => ?_, trimf_apex a b c hab,
    fun x y hax hxy hyb => trimf_mono_rise a b c hab hbc hax hxy hyb,
    fun x y hbx hxy hyc => trimf_anti_fall a b c hab hbc hbx hxy hyc⟩
  rcases hx with h | h
  · exact trimf_eq_zero_of_lt a b c x h
  · exact trimf_eq_zero_of_gt a b c x hab hbc h

/-- Witness for C6 at the parameters `(3, 6, 9)` of `atractivo_promedio`. -/
theorem trimf_triangular_witness :
    ((3 : ℚ) ≤ 6 ∧ (6 : ℚ) ≤ 9) ∧
    ((∀ x, 0 ≤ trimf 3 6 9 x ∧ trimf 3 6 9 x ≤ 1) ∧
      (∀ x, x < 3 ∨ 9 < x → trimf 3 6 9 x = 0) ∧
      trimf 3 6 9 6 = 1 ∧
      (∀ x y, 3 ≤ x → x ≤ y → y ≤ 6 → trimf 3 6 9 x ≤ trimf 3 6 9 y) ∧
      (∀ x y, 6 ≤ x → x ≤ y → y ≤ 9 → trimf 3 6 9 y ≤ trimf 3 6 9 x)) :=
  ⟨⟨by norm_num, by norm_num⟩, trimf_triangular 3 6 9 (by norm_num) (by norm_num)⟩

/-- C7: the four degenerate triangular membership functions of the
configuration (`a = b` for `bajo` and `limitada`, `b = c` for `sobresaliente`
and `abundante`) evaluate totally at every rational: the zero-width rising or
falling segment is a step to 1 (or from 1) at the apex, never a division by
the zero width, and each reaches exactly 1 at its apex. -/
theorem degenerate_trimf_step (x : ℚ) :
    atractivo_bajo x
      = (if x < 0 then 0 else if x = 0 then 1 else if x < 5 then (5 - x) / 5 else 0) ∧
    atractivo_sobresaliente x
      = (if x < 7 then 0 else if x < 10 then (x - 7) / 3 else if x = 10 then 1 else 0) ∧
    disponibilidad_limitada x
      = (if x < 1 then 0 else if x = 1 then 1 else if x < 50 then (50 - x) / 49 else 0) ∧
    disponibilidad_abundante x
      = (if x < 70 then 0 else if x < 100 then (x - 70) / 30 else if x = 100 then 1 else 0) ∧
    atractivo_bajo 0 = 1 ∧ atractivo_sobresaliente 10 = 1 ∧
    disponibilidad_limitada 1 = 1 ∧ disponibilidad_abundante 100 = 1 := by
  refine ⟨?_, ?_, ?_, ?_, ?_, ?_, ?_, ?_⟩
  · unfold atractivo_bajo trimf
    split_ifs <;> norm_num
  · unfold atractivo_sobresaliente trimf
    split_ifs <;> norm_num
  · unfold disponibilidad_limitada trimf
    split_ifs <;> norm_num
  · unfold disponibilidad_abundante trimf
    split_ifs <;> norm_num
  · exact trimf_apex 0 0 5 le_rfl
  · unfold atractivo_sobresaliente trimf
    norm_num
  · exact trimf_apex 1 1 50 le_rfl
  · unfold disponibilidad_abundante trimf
    norm_num

/-- C4: the classification of the success percentage uses half-open bands
with 35 and 75 in the upper band: below 35 is "Bajo", from 35 up to but not
including 75 is "Moderado", and from 75 on is "Alto"; in particular 35 and
74.999 classify as "Moderado" and 75 as "Alto". -/
theorem nivel_texto_bands (e : ℚ) :
    (e < 35 → nivel_texto e = "Bajo") ∧
    (35 ≤ e → e < 75 → nivel_texto e = "Moderado") ∧
    (75 ≤ e → nivel_texto e = "Alto") ∧
    nivel_texto 35 = "Moderado" ∧ nivel_texto (74999 / 1000) = "Moderado" ∧
    nivel_texto 75 = "Alto" := by
  unfold nivel_texto
  refine ⟨fun h => by rw [if_pos h],
    fun h1 h2 => by rw [if_neg (by linarith), if_pos h2],
    fun h => by rw [if_neg (by linarith), if_neg (by linarith)], ?_, ?_, ?_⟩ <;>
    norm_num

/-- Witness for C4: the three band cases applied at 20, 35 and 75. -/
theorem nivel_texto_bands_witness :
    nivel_texto 20 = "Bajo" ∧ nivel_texto 35 = "Moderado" ∧
    nivel_texto 75 = "Alto" :=
  ⟨(nivel_texto_bands 20).1 (by norm_num),
    (nivel_texto_bands 35).2.1 (by norm_num) (by norm_num),
    (nivel_texto_bands 75).2.2.1 (by norm_num)⟩

/-- C5: the return projector is a pure total function: the return factor is
the success percentage divided by 50, the projected return is the investment
times that factor, and the net gain is the projected return minus the
investment; at success 50 and investment 1000 these are 1, 1000 and 0. -/
theorem proyector_formulas (e inversion : ℚ) :
    factor_retorno e = e / 50 ∧
    retorno_proyectado inversion e = inversion * (e / 50) ∧
    ganancia_neta inversion e = inversion * (e / 50) - inversion ∧
    factor_retorno 50 = 1 ∧ retorno_proyectado 1000 50 = 1000 ∧
    ganancia_neta 1000 50 = 0 := by
  refine ⟨rfl, rfl, rfl, ?_, ?_, ?_⟩ <;>
    norm_num [ganancia_neta, retorno_proyectado, factor_retorno]

/-- C9: the inference computation is deterministic and history-free: running
the projection call's protocol (store both inputs, then compute) from any two
prior session states yields the same result, equal to the pure function
`compute` of the two inputs alone. -/
theorem compute_deterministic_history_free (s t : Session) (a d : ℚ) :
    sessionCompute (setDisponibilidadInput (setAtractivoInput s a) d)
      = sessionCompute (setDisponibilidadInput (setAtractivoInput t a) d) ∧
    sessionCompute (setDisponibilidadInput (setAtractivoInput s a) d)
      = compute a d :=
  ⟨rfl, rfl⟩

/-! ## Inference-engine lemmas -/

theorem foldr_max_nonneg (l : List ℚ) : 0 ≤ l.foldr max 0 := by
  induction l with
  | nil => exact le_refl 0
  | cons h t ih => exact le_trans ih (le_max_right h _)

theorem foldr_max_perm {l1 l2 : List ℚ} (p : l1.Perm l2) :
    l1.foldr max 0 = l2.foldr max 0 := by
  induction p with
  | nil => rfl
  | cons x _ ih => rw [List.foldr_cons, List.foldr_cons, ih]
  | swap x y l => exact max_left_comm y x (l.foldr max 0)
  | trans _ _ ih1 ih2 => exact ih1.trans ih2

theorem list_sum_nonneg (l : List ℚ) (h : ∀ x ∈ l, 0 ≤ x) : 0 ≤ l.sum := by
  induction l with
  | nil => exact le_refl 0
  | cons a t ih =>
    rw [List.sum_cons]
    have ha : 0 ≤ a := h a (List.mem_cons_self a t)
    have ht : 0 ≤ t.sum := ih fun x hx => h x (List.mem_cons_of_mem a hx)
    linarith

theorem list_sum_eq_zero_iff (l : List ℚ) (h : ∀ x ∈ l, 0 ≤ x) :
    l.sum = 0 ↔ ∀ x ∈ l, x = 0 := by
  induction l with
  | nil => simp
  | cons a t ih =>
    have ha : 0 ≤ a := h a (List.mem_cons_self a t)
    have ht : ∀ x ∈ t, 0 ≤ x := fun x hx => h x (List.mem_cons_of_mem a hx)
    have hts : 0 ≤ t.sum := list_sum_nonneg t ht
    rw [List.sum_cons]
    constructor
    · intro h0
      have ha0 : a = 0 := by linarith
      have ht0 : t.sum = 0 := by linarith
      intro x hx
      rcases List.mem_cons.mp hx with hx' | hx'
      · rw [hx', ha0]
      · exact (ih ht).mp ht0 x hx'
    · intro hall
      rw [hall a (List.mem_cons_self a t),
        (ih ht).mpr fun x hx => hall x (List.mem_cons_of_mem a hx), add_zero]

theorem fuzzify_nonneg (a d : ℚ) (v t : String) : 0 ≤ fuzzify a d v t := by
  unfold fuzzify atractivo_bajo atractivo_promedio atractivo_sobresaliente
    disponibilidad_limitada disponibilidad_adecuada disponibilidad_abundante
  split_ifs <;> first | exact trimf_nonneg _ _ _ _ | exact le_refl 0

theorem strength_nonneg (σ : String → String → ℚ) (hσ : ∀ v t, 0 ≤ σ v t) :
    ∀ e, 0 ≤ strength σ e := by
  intro e
  induction e with
  | term v t => exact hσ v t
  | andE l r ihl ihr => exact le_min ihl ihr
  | orE l r ihl ihr => exact le_trans ihl (le_max_left _ _)

theorem rules_consequent_nonneg : ∀ r ∈ rules, ∀ x, 0 ≤ r.consequent x := by
  intro r hr x
  simp only [rules, List.mem_cons, List.not_mem_nil, or_false] at hr
  rcases hr with rfl | rfl | rfl | rfl | rfl | rfl <;>
    exact trimf_nonneg _ _ _ _

theorem implicated_nonneg (a d : ℚ) (r : Rule) (hr : r ∈ rules) (x : ℚ) :
    0 ≤ implicated (fuzzify a d) r x :=
  le_min (strength_nonneg _ (fuzzify_nonneg a d) _)
    (rules_consequent_nonneg r hr x)

theorem aggregated_nonneg (rs : List Rule) (σ : String → String → ℚ) (x : ℚ) :
    0 ≤ aggregated rs σ x :=
  foldr_max_nonneg _

/-- The aggregated curve sums to zero over the consequent universe exactly
when it is identically zero at every sample point. -/
theorem sum_aggregated_eq_zero_iff (rs : List Rule) (a d : ℚ) :
    (exitoUniverse.map (aggregated rs (fuzzify a d))).sum = 0 ↔
      ∀ x ∈ exitoUniverse, aggregated rs (fuzzify a d) x = 0 := by
  have hnn : ∀ y ∈ exitoUniverse.map (aggregated rs (fuzzify a d)), 0 ≤ y := by
    intro y hy
    rcases List.mem_map.mp hy with ⟨x, _, rfl⟩
    exact aggregated_nonneg rs _ x
  rw [list_sum_eq_zero_iff _ hnn]
  constructor
  · intro hall x hx
    exact hall _ (List.mem_map_of_mem _ hx)
  · intro hall y hy
    rcases List.mem_map.mp hy with ⟨x, hx, rfl⟩
    exact hall x hx

/-- `compute` takes the failure branch exactly when the aggregated curve is
identically zero over the consequent universe. -/
theorem compute_error_iff (a d : ℚ) :
    compute a d = Except.error FuzzyError.undefinedDefuzzification ↔
      ∀ x ∈ exitoUniverse, aggregated rules (fuzzify a d) x = 0 := by
  unfold compute computeWith
  rw [← sum_aggregated_eq_zero_iff rules a d]
  split_ifs with hden
  · simp [hden]
  · simp [hden]

/-- Whenever the aggregated curve is not identically zero, `compute` returns
a crisp value. -/
theorem compute_ok_of_not_zero (a d : ℚ)
    (h : ¬ ∀ x ∈ exitoUniverse, aggregated rules (fuzzify a d) x = 0) :
    ∃ q, compute a d = Except.ok q := by
  have hden : (exitoUniverse.map (aggregated rules (fuzzify a d))).sum ≠ 0 :=
    fun h0 => h ((sum_aggregated_eq_zero_iff rules a d).mp h0)
  exact ⟨_, by unfold compute computeWith; rw [if_neg hden]⟩

/-- The generic engine's aggregation over the six-rule base coincides with
the rule-by-rule curve written out from the spec. -/
theorem aggregated_rules_eq (a d x : ℚ) :
    aggregated rules (fuzzify a d) x = mamdaniAggregate a d x := by
  have h6 : (0 : ℚ) ≤
      min (min (atractivo_promedio a) (disponibilidad_limitada d))
        (exito_bajo x) :=
    le_min (le_min (trimf_nonneg 3 6 9 a) (trimf_nonneg 1 1 50 d))
      (trimf_nonneg 0 15 30 x)
  have step : aggregated rules (fuzzify a d) x =
      max (min (atractivo_bajo a) (exito_bajo x))
        (max (min (min (atractivo_sobresaliente a) (disponibilidad_abundante d))
            (exito_alto x))
          (max (min (min (atractivo_sobresaliente a) (disponibilidad_limitada d))
              (exito_moderado x))
            (max (min (min (atractivo_promedio a) (disponibilidad_adecuada d))
                (exito_moderado x))
              (max (min (min (atractivo_promedio a) (disponibilidad_abundante d))
                  (exito_alto x))
                (max (min (min (atractivo_promedio a) (disponibilidad_limitada d))
                    (exito_bajo x)) 0))))) := rfl
  rw [step, max_eq_left h6]
  rfl

/-- C1: the inference computation surfaces an identically-zero aggregated
curve as the distinct failure value `undefinedDefuzzification`, never as a
crisp number, and that failure value is different from every valid crisp
output, in particular from 0. -/
theorem compute_undefined_distinct (a d : ℚ) :
    (compute a d = Except.error FuzzyError.undefinedDefuzzification ↔
      ∀ x ∈ exitoUniverse, aggregated rules (fuzzify a d) x = 0) ∧
    ∀ q : ℚ,
      (Except.error FuzzyError.undefinedDefuzzification : Except FuzzyError ℚ)
        ≠ Except.ok q :=
  ⟨compute_error_iff a d, fun _ h => Except.noConfusion h⟩

/-- Witness for C1 at the inputs `(0, 0)` and the crisp value 0. -/
theorem compute_undefined_distinct_witness :
    (compute 0 0 = Except.error FuzzyError.undefinedDefuzzification ↔
      ∀ x ∈ exitoUniverse, aggregated rules (fuzzify 0 0) x = 0) ∧
    (Except.error FuzzyError.undefinedDefuzzification : Except FuzzyError ℚ)
      ≠ Except.ok 0 :=
  ⟨(compute_undefined_distinct 0 0).1, (compute_undefined_distinct 0 0).2 0⟩

/-- C2: on every input pair the inference computation is exactly the Mamdani
pipeline of the spec: firing strengths are minima of the AND-combined
antecedent degrees, consequent shapes are clipped at the strengths, the
clipped sets are combined by point-wise maximum, and the crisp output is the
centroid of the aggregated curve over the consequent universe samples. -/
theorem compute_eq_mamdani (a d : ℚ) : compute a d = mamdaniCentroid a d := by
  have hf : aggregated rules (fuzzify a d) = mamdaniAggregate a d :=
    funext (aggregated_rules_eq a d)
  unfold compute computeWith mamdaniCentroid
  rw [hf]

/-- C3: fuzzification saturates at 0 outside the nominal ranges (0-10 for
attractiveness, 1-100 for availability) instead of raising an error, and the
computation returns a crisp value whenever the aggregated curve is not
identically zero: the zero curve is the only error condition. -/
theorem out_of_range_no_error (a d : ℚ) (ha : a < 0 ∨ 10 < a)
    (hd : d < 1 ∨ 100 < d) :
    atractivo_bajo a = 0 ∧ atractivo_promedio a = 0 ∧
    atractivo_sobresaliente a = 0 ∧ disponibilidad_limitada d = 0 ∧
    disponibilidad_adecuada d = 0 ∧ disponibilidad_abundante d = 0 ∧
    ∀ a2 d2 : ℚ,
      (¬ ∀ x ∈ exitoUniverse, aggregated rules (fuzzify a2 d2) x = 0) →
        ∃ q, compute a2 d2 = Except.ok q := by
  refine ⟨?_, ?_, ?_, ?_, ?_, ?_, fun a2 d2 h => compute_ok_of_not_zero a2 d2 h⟩
  · rcases ha with h | h
    · exact trimf_eq_zero_of_lt 0 0 5 a h
    · exact trimf_eq_zero_of_gt 0 0 5 a le_rfl (by norm_num) (by linarith)
  · rcases ha with h | h
    · exact trimf_eq_zero_of_lt 3 6 9 a (by linarith)
    · exact trimf_eq_zero_of_gt 3 6 9 a (by norm_num) (by norm_num) (by linarith)
  · rcases ha with h | h
    · exact trimf_eq_zero_of_lt 7 10 10 a (by linarith)
    · exact trimf_eq_zero_of_gt 7 10 10 a (by norm_num) le_rfl (by linarith)
  · rcases hd with h | h
    · exact trimf_eq_zero_of_lt 1 1 50 d h
    · exact trimf_eq_zero_of_gt 1 1 50 d le_rfl (by norm_num) (by linarith)
  · rcases hd with h | h
    · exact trimf_eq_zero_of_lt 30 70 90 d (by linarith)
    · exact trimf_eq_zero_of_gt 30 70 90 d (by norm_num) (by norm_num) (by linarith)
  · rcases hd with h | h
    · exact trimf_eq_zero_of_lt 70 100 100 d (by linarith)
    · exact trimf_eq_zero_of_gt 70 100 100 d (by norm_num) le_rfl (by linarith)

/-- Witness for C3 at the out-of-range inputs `(-1, 200)`. -/
theorem out_of_range_no_error_witness :
    (((-1 : ℚ) < 0 ∨ 10 < (-1 : ℚ)) ∧ ((200 : ℚ) < 1 ∨ 100 < (200 : ℚ))) ∧
    (atractivo_bajo (-1) = 0 ∧ atractivo_promedio (-1) = 0 ∧
      atractivo_sobresaliente (-1) = 0 ∧ disponibilidad_limitada 200 = 0 ∧
      disponibilidad_adecuada 200 = 0 ∧ disponibilidad_abundante 200 = 0 ∧
      ∀ a2 d2 : ℚ,
        (¬ ∀ x ∈ exitoUniverse, aggregated rules (fuzzify a2 d2) x = 0) →
          ∃ q, compute a2 d2 = Except.ok q) :=
  ⟨⟨Or.inl (by norm_num), Or.inr (by norm_num)⟩,
    out_of_range_no_error (-1) 200 (Or.inl (by norm_num)) (Or.inr (by norm_num))⟩

/-- C8: rule order is irrelevant: running the pipeline with any permutation
of the six-rule list produces exactly the same result as `compute`,
including whether it fails. -/
theorem rule_order_irrelevant (rs : List Rule) (h : rs.Perm rules) (a d : ℚ) :
    computeWith rs a d = compute a d := by
  have hf : aggregated rs (fuzzify a d) = aggregated rules (fuzzify a d) :=
    funext fun x =>
      foldr_max_perm (h.map fun r => implicated (fuzzify a d) r x)
  unfold compute computeWith
  rw [hf]

/-- Witness for C8: the reversed rule list at the inputs `(5, 40)`. -/
theorem rule_order_irrelevant_witness :
    rules.reverse.Perm rules ∧ computeWith rules.reverse 5 40 = compute 5 40 :=
  ⟨rules.reverse_perm, rule_order_irrelevant rules.reverse rules.reverse_perm 5 40⟩

/-- C10: the in-range input pair `(10, 70)` zeroes every rule's firing
strength — `bajo(10) = 0`, `promedio(10) = 0`, `abundante(70) = 0` and
`limitada(70) = 0` kill all six antecedents — so the aggregated curve is
identically zero and the computation takes the failure branch. -/
theorem nominal_range_gap_failure :
    ((0 : ℚ) ≤ 10 ∧ (10 : ℚ) ≤ 10 ∧ (1 : ℚ) ≤ 70 ∧ (70 : ℚ) ≤ 100) ∧
    atractivo_bajo 10 = 0 ∧ atractivo_promedio 10 = 0 ∧
    disponibilidad_abundante 70 = 0 ∧ disponibilidad_limitada 70 = 0 ∧
    strength (fuzzify 10 70) rule1.antecedent = 0 ∧
    strength (fuzzify 10 70) rule2.antecedent = 0 ∧
    strength (fuzzify 10 70) rule3.antecedent = 0 ∧
    strength (fuzzify 10 70) rule4.antecedent = 0 ∧
    strength (fuzzify 10 70) rule5.antecedent = 0 ∧
    strength (fuzzify 10 70) rule6.antecedent = 0 ∧
    compute 10 70 = Except.error FuzzyError.undefinedDefuzzification := by
  have hb : atractivo_bajo 10 = 0 :=
    trimf_eq_zero_of_gt 0 0 5 10 le_rfl (by norm_num) (by norm_num)
  have hp : atractivo_promedio 10 = 0 :=
    trimf_eq_zero_of_gt 3 6 9 10 (by norm_num) (by norm_num) (by norm_num)
  have hsob : atractivo_sobresaliente 10 = 1 := trimf_apex 7 10 10 (by norm_num)
  have habu : disponibilidad_abundante 70 = 0 := by
    unfold disponibilidad_abundante trimf
    norm_num
  have hlim : disponibilidad_limitada 70 = 0 :=
    trimf_eq_zero_of_gt 1 1 50 70 le_rfl (by norm_num) (by norm_num)
  have hade : disponibilidad_adecuada 70 = 1 := trimf_apex 30 70 90 (by norm_num)
  have hs1 : strength (fuzzify 10 70) rule1.antecedent = 0 := hb
  have hs2 : strength (fuzzify 10 70) rule2.antecedent = 0 := by
    show min (atractivo_sobresaliente 10) (disponibilidad_abundante 70) = 0
    rw [hsob, habu]
    exact min_eq_right zero_le_one
  have hs3 : strength (fuzzify 10 70) rule3.antecedent = 0 := by
    show min (atractivo_sobresaliente 10) (disponibilidad_limitada 70) = 0
    rw [hsob, hlim]
    exact min_eq_right zero_le_one
  have hs4 : strength (fuzzify 10 70) rule4.antecedent = 0 := by
    show min (atractivo_promedio 10) (disponibilidad_adecuada 70) = 0
    rw [hp, hade]
    exact min_eq_left zero_le_one
  have hs5 : strength (fuzzify 10 70) rule5.antecedent = 0 := by
    show min (atractivo_promedio 10) (disponibilidad_abundante 70) = 0
    rw [hp, habu, min_self]
  have hs6 : strength (fuzzify 10 70) rule6.antecedent = 0 := by
    show min (atractivo_promedio 10) (disponibilidad_limitada 70) = 0
    rw [hp, hlim, min_self]
  have hagg : ∀ x ∈ exitoUniverse, aggregated rules (fuzzify 10 70) x = 0 := by
    intro x _
    rw [aggregated_rules_eq]
    unfold mamdaniAggregate
    rw [hb, hp, hsob, habu, hlim, hade]
    have h1 : (0 : ℚ) ≤ exito_bajo x := trimf_nonneg 0 15 30 x
    have h2 : (0 : ℚ) ≤ exito_moderado x := trimf_nonneg 20 50 80 x
    have h3 : (0 : ℚ) ≤ exito_alto x := trimf_nonneg 70 90 100 x
    rw [min_eq_right zero_le_one, min_eq_left zero_le_one, min_self,
      min_eq_left h1, min_eq_left h3, min_eq_left h2]
    simp
  exact ⟨⟨by norm_num, le_rfl, by norm_num, by norm_num⟩, hb, hp, habu, hlim,
    hs1, hs2, hs3, hs4, hs5, hs6, (compute_error_iff 10 70).mpr hagg⟩

end LogicaDifusa
